import Mathlib

/-!
Shallow embedding of the trading-system backtest pipeline:
the risk gate (`order_manager.py`), the stochastic matching engine
(`matching_engine.py`), the backtest loop (`Strategy_Backtesting.py`)
and the strategies (`strategy_base.py`).  Prices, cash and timestamps
are rationals; positions and quantities are integers.
-/

namespace TradingSystem

/-- Modelled from the spec: order sides.  The `Order` class lives in
`order_book.py`, which is absent from the sources; the spec's data model says
the side is buy or sell, and the in-scope code compares `order.side` against
the string "buy" with everything else treated as a sell. -/
inductive Side where
  | buy
  | sell
deriving DecidableEq

/-- Modelled from the spec: the `Order` record of `order_book.py` (absent from
the sources).  The fields the in-scope components read are `order_id`, `side`,
`price` and `qty`. -/
structure Order where
  order_id : ℕ
  side : Side
  price : ℚ
  qty : ℤ
deriving DecidableEq

/-- State of `OrderManager` (`order_manager.py` lines 8-13): available capital,
the configured position bound and per-minute order bound, the recorded
timestamps of approved orders, and the current position. -/
structure OMState where
  capital : ℚ
  max_position : ℤ
  max_orders_per_min : ℕ
  order_timestamps : List ℚ
  current_position : ℤ
deriving DecidableEq

/-- `OrderManager.__init__`: fresh state with no recorded timestamps and flat
position. -/
def OMState.init (capital : ℚ) (max_position : ℤ) (max_orders_per_min : ℕ) : OMState :=
  ⟨capital, max_position, max_orders_per_min, [], 0⟩

/-- `OrderManager._check_capital`: a buy needs notional ≤ capital, a sell
always passes. -/
def OMState.check_capital (s : OMState) (o : Order) : Bool :=
  if o.side = Side.buy then decide (o.price * (o.qty : ℚ) ≤ s.capital) else true

/-- `OrderManager._check_position_limit`: a buy may not push the position above
`max_position`, a sell may not push it below `-max_position`. -/
def OMState.check_position_limit (s : OMState) (o : Order) : Bool :=
  if o.side = Side.buy then decide (s.current_position + o.qty ≤ s.max_position)
  else decide (-s.max_position ≤ s.current_position - o.qty)

/-- `OrderManager._check_order_rate`: prune recorded timestamps to those less
than 60 seconds old (this prune is a state mutation), then require the count of
survivors to be below the configured maximum.  Returns the check result and the
pruned state. -/
def OMState.check_order_rate (s : OMState) (now : ℚ) : Bool × OMState :=
  let ts := s.order_timestamps.filter fun u => decide (now - u < 60)
  (decide (ts.length < s.max_orders_per_min),
    ⟨s.capital, s.max_position, s.max_orders_per_min, ts, s.current_position⟩)

/-- Result of `OrderManager.validate`: the accepted flag, the reason text, and
the order manager's state after the call. -/
structure VResult where
  ok : Bool
  reason : String
  state : OMState
deriving DecidableEq

/-- `OrderManager.validate` (`order_manager.py` lines 31-49): capital check,
then position-limit check, then order-rate check, short-circuiting with the
source's literal reason strings; on approval the current timestamp is recorded
and the full order quantity (and, for buys, the full notional) is applied. -/
def OMState.validate (s : OMState) (o : Order) (now : ℚ) : VResult :=
  if s.check_capital o = false then ⟨false, "Not enough capital", s⟩
  else if s.check_position_limit o = false then ⟨false, "Position limit exceeded", s⟩
  else if (s.check_order_rate now).1 = false then
    ⟨false, "Order rate limit exceeded", (s.check_order_rate now).2⟩
  else
    let s1 := (s.check_order_rate now).2
    let ts := s1.order_timestamps ++ [now]
    if o.side = Side.buy then
      ⟨true, "Order approved",
        ⟨s1.capital - o.price * (o.qty : ℚ), s1.max_position, s1.max_orders_per_min, ts,
          s1.current_position + o.qty⟩⟩
    else
      ⟨true, "Order approved",
        ⟨s1.capital, s1.max_position, s1.max_orders_per_min, ts,
          s1.current_position - o.qty⟩⟩

/-- Execution report returned by `MatchingEngine.simulate_execution`. -/
structure ExecResult where
  order_id : ℕ
  status : String
  filled_qty : ℤ
deriving DecidableEq

/-- Python `int(...)` on a float: truncation toward zero, embedded on ℚ. -/
def pyInt (q : ℚ) : ℤ := if 0 ≤ q then ⌊q⌋ else ⌈q⌉

/-- `MatchingEngine.simulate_execution` (`matching_engine.py` lines 9-31) with
the random draws made explicit: `r` is the primary draw `random.random()` and
`f` the secondary draw `random.uniform(0.1, 0.9)`, consumed only in the
partial branch where the fill quantity is `int(order.qty * f)`. -/
def simulate_execution (r f : ℚ) (o : Order) : ExecResult :=
  if r < (0.70 : ℚ) then ⟨o.order_id, "filled", o.qty⟩
  else if r < (0.90 : ℚ) then ⟨o.order_id, "partial", pyInt ((o.qty : ℚ) * f)⟩
  else ⟨o.order_id, "cancelled", 0⟩

/-- `simulate_execution` with the module-global random source made explicit:
`d` is the draw stream of the process-global generator (as seeded once) and
`i` the stream cursor; a full fill or cancellation consumes one draw, a
partial fill consumes a second draw for the fraction.  Returns the report and
the advanced cursor. -/
def simulate_execution_global (d : ℕ → ℚ) (i : ℕ) (o : Order) : ExecResult × ℕ :=
  if d i < (0.70 : ℚ) then (⟨o.order_id, "filled", o.qty⟩, i + 1)
  else if d i < (0.90 : ℚ) then (⟨o.order_id, "partial", pyInt ((o.qty : ℚ) * d (i + 1))⟩, i + 2)
  else (⟨o.order_id, "cancelled", 0⟩, i + 1)

/-- A sequence of `simulate_execution` calls against the process-global random
stream, threading the cursor from order to order. -/
def run_engine (d : ℕ → ℚ) (i : ℕ) : List Order → List ExecResult × ℕ
  | [] => ([], i)
  | o :: os =>
    let step := simulate_execution_global d i o
    let rest := run_engine d step.2 os
    (step.1 :: rest.1, rest.2)

/-- A draw stream of the process-global generator under one fixed seed set at
process start: the first draw is 0.05, every later draw is 0.95. -/
def seeded_draws : ℕ → ℚ := fun i => if i = 0 then 1/20 else 19/20

/-- Cash and position of the `Backtester` (its Ledger role). -/
structure BTState where
  cash : ℚ
  position : ℤ
deriving DecidableEq

/-- The settle step inside `Backtester._execute_order`
(`Strategy_Backtesting.py` lines 46-56): filled and partial reports are
applied at the order's price for the filled quantity; cancelled reports leave
cash and position untouched. -/
def apply_fill (b : BTState) (o : Order) (res : ExecResult) : BTState :=
  if res.status = "filled" ∨ res.status = "partial" then
    if o.side = Side.buy then
      ⟨b.cash - o.price * (res.filled_qty : ℚ), b.position + res.filled_qty⟩
    else
      ⟨b.cash + o.price * (res.filled_qty : ℚ), b.position - res.filled_qty⟩
  else b

/-- Result of one tick of `Backtester.run`: the equity value appended to the
curve, the ledger state, the order-manager state, and the bar's close. -/
structure TickResult where
  equity : ℚ
  bt : BTState
  om : OMState
  price : ℚ
deriving DecidableEq

/-- One iteration of the `Backtester.run` loop (`Strategy_Backtesting.py`
lines 92-132): mark equity to market at the bar's close (before any trading),
then — when the signal is nonzero — create a fixed-size order priced at the
close, validate it with the order manager, and on acceptance simulate
execution and settle the fill. -/
def tick (bt : BTState) (om : OMState) (signal : ℤ) (price now r f : ℚ) (oid : ℕ) : TickResult :=
  if signal = 0 then ⟨bt.cash + (bt.position : ℚ) * price, bt, om, price⟩
  else if (om.validate ⟨oid, if signal = 1 then Side.buy else Side.sell, price, 10⟩ now).ok
      = false then
    ⟨bt.cash + (bt.position : ℚ) * price, bt,
      (om.validate ⟨oid, if signal = 1 then Side.buy else Side.sell, price, 10⟩ now).state,
      price⟩
  else
    ⟨bt.cash + (bt.position : ℚ) * price,
      apply_fill bt ⟨oid, if signal = 1 then Side.buy else Side.sell, price, 10⟩
        (simulate_execution r f ⟨oid, if signal = 1 then Side.buy else Side.sell, price, 10⟩),
      (om.validate ⟨oid, if signal = 1 then Side.buy else Side.sell, price, 10⟩ now).state,
      price⟩

/-- The list of timestamps at which a sequence of `validate` calls approves an
order, threading the manager state through the calls. -/
def accepted_times (s : OMState) : List (Order × ℚ) → List ℚ
  | [] => []
  | c :: rest =>
    if (s.validate c.1 c.2).ok = true
    then c.2 :: accepted_times ((s.validate c.1 c.2).state) rest
    else accepted_times ((s.validate c.1 c.2).state) rest

/-- The successive states of a sequence of `validate` calls. -/
def run_validates (s : OMState) : List (Order × ℚ) → List OMState
  | [] => []
  | c :: rest =>
    ((s.validate c.1 c.2).state) :: run_validates ((s.validate c.1 c.2).state) rest

/-- `pandas.Series.rolling(w, min_periods=1).mean()` at index `t`: the mean of
the last `min (t+1) w` closes ending at `t` (`strategy_base.py` lines 36-37). -/
def rolling_mean (w : ℕ) (closes : List ℚ) (t : ℕ) : ℚ :=
  let window := (closes.take (t + 1)).drop (t + 1 - w)
  window.sum / (window.length : ℚ)

/-- `MovingAverageStrategy.generate_signals` at bar `t` (`strategy_base.py`
lines 42-49): buy on an upward short/long moving-average cross (non-strict at
`t-1`, strict at `t`), sell on the mirrored downward cross, otherwise hold.
At bar 0 the shifted averages are NaN and pandas comparisons with NaN are
false, so no signal fires. -/
def ma_signal (short long : ℕ) (closes : List ℚ) (t : ℕ) : ℤ :=
  if t = 0 then 0
  else
    if rolling_mean short closes (t - 1) ≤ rolling_mean long closes (t - 1) ∧
        rolling_mean long closes t < rolling_mean short closes t then 1
    else if rolling_mean long closes (t - 1) ≤ rolling_mean short closes (t - 1) ∧
        rolling_mean short closes t < rolling_mean long closes t then -1
    else 0

/-- The one-bar quote-activity flags of `PennyInPennyOutStrategy
.generate_signals` (`strategy_base.py` lines 167-170): `volatility` is the
bar's realized-volatility column value, `pos` the injected current position.
Returns (bid_active, ask_active). -/
def quote_active (volatility : ℚ) (pos soft_limit : ℤ) (vol_halt : ℚ) : Bool × Bool :=
  let high_vol := decide (vol_halt < volatility)
  (!high_vol && decide ((pos : ℚ) < (soft_limit : ℚ) * (1.5 : ℚ)),
    !high_vol && decide (-(soft_limit : ℚ) * (1.5 : ℚ) < (pos : ℚ)))

/-! Lemmas about `OMState.validate`. -/

theorem validate_checks_of_ok (s : OMState) (o : Order) (now : ℚ)
    (h : (s.validate o now).ok = true) :
    s.check_capital o = true ∧ s.check_position_limit o = true ∧
      (s.check_order_rate now).1 = true := by
  unfold OMState.validate at h
  split_ifs at h with h1 h2 h3 <;> simp_all

theorem validate_state_of_ok (s : OMState) (o : Order) (now : ℚ)
    (h : (s.validate o now).ok = true) :
    (s.validate o now).state =
      if o.side = Side.buy then
        ⟨s.capital - o.price * (o.qty : ℚ), s.max_position, s.max_orders_per_min,
          (s.order_timestamps.filter fun u => decide (now - u < 60)) ++ [now],
          s.current_position + o.qty⟩
      else
        ⟨s.capital, s.max_position, s.max_orders_per_min,
          (s.order_timestamps.filter fun u => decide (now - u < 60)) ++ [now],
          s.current_position - o.qty⟩ := by
  unfold OMState.validate at h ⊢
  split_ifs at h ⊢ <;> simp_all [OMState.check_order_rate]

theorem validate_state_of_not_ok (s : OMState) (o : Order) (now : ℚ)
    (h : (s.validate o now).ok = false) :
    (s.validate o now).state = s ∨
      (s.validate o now).state =
        ⟨s.capital, s.max_position, s.max_orders_per_min,
          s.order_timestamps.filter fun u => decide (now - u < 60),
          s.current_position⟩ := by
  unfold OMState.validate at h ⊢
  split_ifs at h ⊢ <;> simp_all [OMState.check_order_rate]

theorem validate_max_position (s : OMState) (o : Order) (now : ℚ) :
    ((s.validate o now).state).max_position = s.max_position := by
  unfold OMState.validate
  split_ifs <;> simp [OMState.check_order_rate]

theorem validate_max_orders (s : OMState) (o : Order) (now : ℚ) :
    ((s.validate o now).state).max_orders_per_min = s.max_orders_per_min := by
  unfold OMState.validate
  split_ifs <;> simp [OMState.check_order_rate]

theorem validate_rate_of_ok (s : OMState) (o : Order) (now : ℚ)
    (h : (s.validate o now).ok = true) :
    (s.order_timestamps.filter fun u => decide (now - u < 60)).length
      < s.max_orders_per_min := by
  have h3 := (validate_checks_of_ok s o now h).2.2
  simpa [OMState.check_order_rate] using h3

theorem validate_timestamps_of_ok (s : OMState) (o : Order) (now : ℚ)
    (h : (s.validate o now).ok = true) :
    ((s.validate o now).state).order_timestamps =
      (s.order_timestamps.filter fun u => decide (now - u < 60)) ++ [now] := by
  rw [validate_state_of_ok s o now h]
  split_ifs <;> rfl

theorem validate_capital_delta (s : OMState) (o : Order) (now : ℚ) :
    ((s.validate o now).state).capital =
      s.capital - (if (s.validate o now).ok = true ∧ o.side = Side.buy
        then o.price * (o.qty : ℚ) else 0) := by
  unfold OMState.validate
  split_ifs <;> simp_all [OMState.check_order_rate]

/-! Claim theorems. -/

/-- C1: the equity value appended at a tick equals the ledger's cash plus
position times the bar's close, both for the values the loop reads when the
equity is computed (before trading) and for the values after any fill settled
at that tick — the fill settles at the order price, which is the bar's close,
so the identity holds on both sides of the settle step. -/
theorem tick_equity_mark_to_market (bt : BTState) (om : OMState) (signal : ℤ)
    (price now r f : ℚ) (oid : ℕ) :
    (tick bt om signal price now r f oid).equity
        = bt.cash + (bt.position : ℚ) * price ∧
    (tick bt om signal price now r f oid).equity
        = (tick bt om signal price now r f oid).bt.cash
            + ((tick bt om signal price now r f oid).bt.position : ℚ) * price := by
  unfold tick
  split_ifs <;> refine ⟨rfl, ?_⟩ <;>
    first
      | rfl
      | (unfold apply_fill; split_ifs <;> simp <;> ring)

/-- C2 (counterexample): with capital 1000, a buy order of notional 2000 is
rejected, but the reason text is none of the three texts the claim lists. -/
theorem reject_reason_counterexample :
    ((OMState.init 1000 500 30).validate ⟨0, Side.buy, 2000, 1⟩ 0).ok = false ∧
    ((OMState.init 1000 500 30).validate ⟨0, Side.buy, 2000, 1⟩ 0).reason
        ≠ "insufficient capital" ∧
    ((OMState.init 1000 500 30).validate ⟨0, Side.buy, 2000, 1⟩ 0).reason
        ≠ "position limit exceeded" ∧
    ((OMState.init 1000 500 30).validate ⟨0, Side.buy, 2000, 1⟩ 0).reason
        ≠ "order rate limit exceeded" := by
  norm_num [OMState.validate, OMState.check_capital, OMState.init]
  exact ⟨by decide, by decide, by decide⟩

/-- C2 (amended): on any rejection the gate's capital, position and configured
limits are unchanged and no timestamp is recorded; the reason is exactly one of
the source's texts "Not enough capital", "Position limit exceeded",
"Order rate limit exceeded"; on a capital or position rejection the whole
state — the recorded timestamps included — is untouched, and on a rate-limit
rejection the recorded timestamps are exactly the previous ones pruned of
entries 60 seconds or older (in particular a sublist, with nothing appended). -/
theorem reject_frame (s : OMState) (o : Order) (now : ℚ)
    (h : (s.validate o now).ok = false) :
    ((s.validate o now).state).capital = s.capital ∧
    ((s.validate o now).state).current_position = s.current_position ∧
    ((s.validate o now).state).max_position = s.max_position ∧
    ((s.validate o now).state).max_orders_per_min = s.max_orders_per_min ∧
    List.Sublist ((s.validate o now).state).order_timestamps s.order_timestamps ∧
    ((s.validate o now).reason = "Not enough capital" ∨
      (s.validate o now).reason = "Position limit exceeded" ∨
      (s.validate o now).reason = "Order rate limit exceeded") ∧
    ((s.validate o now).reason = "Not enough capital" ∨
        (s.validate o now).reason = "Position limit exceeded" →
      (s.validate o now).state = s) ∧
    ((s.validate o now).reason = "Order rate limit exceeded" →
      ((s.validate o now).state).order_timestamps
        = s.order_timestamps.filter fun u => decide (now - u < 60)) := by
  unfold OMState.validate at h ⊢
  split_ifs at h ⊢ <;>
    simp_all [OMState.check_order_rate, List.Sublist.refl, List.filter_sublist]

/-- C2 witness: the concrete scenario of the claim — capital 1000 against a
2000-notional buy — is rejected with exactly the reason "Not enough capital",
and by the theorem's capital-branch case the whole state, timestamps
included, is untouched. -/
theorem reject_frame_witness :
    ((OMState.init 1000 500 30).validate ⟨0, Side.buy, 2000, 1⟩ 0).ok = false ∧
    ((OMState.init 1000 500 30).validate ⟨0, Side.buy, 2000, 1⟩ 0).reason
        = "Not enough capital" ∧
    ((OMState.init 1000 500 30).validate ⟨0, Side.buy, 2000, 1⟩ 0).state
        = OMState.init 1000 500 30 := by
  have hok : ((OMState.init 1000 500 30).validate ⟨0, Side.buy, 2000, 1⟩ 0).ok = false := by
    norm_num [OMState.validate, OMState.check_capital, OMState.init]
  have hreason : ((OMState.init 1000 500 30).validate ⟨0, Side.buy, 2000, 1⟩ 0).reason
      = "Not enough capital" := by
    norm_num [OMState.validate, OMState.check_capital, OMState.init]
  have h := reject_frame (OMState.init 1000 500 30) ⟨0, Side.buy, 2000, 1⟩ 0 hok
  exact ⟨hok, hreason, h.2.2.2.2.2.2.1 (Or.inl hreason)⟩

/-- C3: an accepted buy leaves the position at or below `max_position`, an
accepted sell leaves it at or above `-max_position`. -/
theorem accepted_position_bounds (s : OMState) (o : Order) (now : ℚ)
    (h : (s.validate o now).ok = true) :
    (o.side = Side.buy → ((s.validate o now).state).current_position ≤ s.max_position) ∧
    (o.side = Side.sell → -s.max_position ≤ ((s.validate o now).state).current_position) := by
  have hpos := (validate_checks_of_ok s o now h).2.1
  rw [validate_state_of_ok s o now h]
  unfold OMState.check_position_limit at hpos
  constructor
  · intro hside
    rw [if_pos hside] at hpos ⊢
    exact of_decide_eq_true hpos
  · intro hside
    have hnb : ¬ o.side = Side.buy := by simp [hside]
    rw [if_neg hnb] at hpos ⊢
    exact of_decide_eq_true hpos

/-- C3 witness: a concrete accepted buy satisfies the position bound. -/
theorem accepted_position_bounds_witness :
    ((OMState.init 100000 500 30).validate ⟨0, Side.buy, 10, 10⟩ 0).ok = true ∧
    (((OMState.init 100000 500 30).validate ⟨0, Side.buy, 10, 10⟩ 0).state).current_position
        ≤ (OMState.init 100000 500 30).max_position := by
  have hok : ((OMState.init 100000 500 30).validate ⟨0, Side.buy, 10, 10⟩ 0).ok = true := by
    norm_num [OMState.validate, OMState.check_capital, OMState.check_position_limit,
      OMState.check_order_rate, OMState.init]
  exact ⟨hok,
    (accepted_position_bounds (OMState.init 100000 500 30) ⟨0, Side.buy, 10, 10⟩ 0 hok).1 rfl⟩

/-- C5: for every bar `t ≥ 1`, the trend-follower emits a buy signal exactly
when the short moving average was ≤ the long one at `t-1` and is strictly
greater at `t`, a sell signal exactly on the mirrored downward cross, and
holds exactly when neither cross happens (so on a series crossing upward
exactly once, exactly one buy fires, at the crossing bar). -/
theorem ma_signal_crossover (short long : ℕ) (closes : List ℚ) (t : ℕ) (h : 1 ≤ t) :
    (ma_signal short long closes t = 1 ↔
      (rolling_mean short closes (t - 1) ≤ rolling_mean long closes (t - 1) ∧
        rolling_mean long closes t < rolling_mean short closes t)) ∧
    (ma_signal short long closes t = -1 ↔
      (rolling_mean long closes (t - 1) ≤ rolling_mean short closes (t - 1) ∧
        rolling_mean short closes t < rolling_mean long closes t)) ∧
    (ma_signal short long closes t = 0 ↔
      (¬ (rolling_mean short closes (t - 1) ≤ rolling_mean long closes (t - 1) ∧
            rolling_mean long closes t < rolling_mean short closes t) ∧
        ¬ (rolling_mean long closes (t - 1) ≤ rolling_mean short closes (t - 1) ∧
            rolling_mean short closes t < rolling_mean long closes t))) := by
  have ht : ¬ t = 0 := by omega
  unfold ma_signal
  rw [if_neg ht]
  split_ifs with hbuy hsell
  · refine ⟨by simp [hbuy], ?_, ?_⟩
    · constructor
      · intro hc; exact absurd hc (by decide)
      · intro hc; exact absurd hc.2 (not_lt.mpr (le_of_lt hbuy.2))
    · constructor
      · intro hc; exact absurd hc (by decide)
      · intro hc; exact absurd hbuy hc.1
  · refine ⟨?_, by simp [hsell], ?_⟩
    · constructor
      · intro hc; exact absurd hc (by decide)
      · intro hc; exact absurd hc hbuy
    · constructor
      · intro hc; exact absurd hc (by decide)
      · intro hc; exact absurd hsell hc.2
  · refine ⟨?_, ?_, by simp [hbuy, hsell]⟩
    · constructor
      · intro hc; exact absurd hc (by decide)
      · intro hc; exact absurd hc hbuy
    · constructor
      · intro hc; exact absurd hc (by decide)
      · intro hc; exact absurd hc hsell

/-- C5 witness: on the series [1, 1, 4] with windows 2 and 3, the short
average crosses the long one upward at bar 2, and the theorem yields the buy
signal there. -/
theorem ma_signal_crossover_witness :
    (1 ≤ 2 ∧ ma_signal 2 3 [1, 1, 4] 2 = 1) ∧
    ma_signal 2 3 [1, 1, 4] 1 = 0 := by
  refine ⟨⟨by norm_num, ?_⟩, ?_⟩
  · exact (ma_signal_crossover 2 3 [1, 1, 4] 2 (by norm_num)).1.mpr
      (by norm_num [rolling_mean])
  · exact (ma_signal_crossover 2 3 [1, 1, 4] 1 (by norm_num)).2.2.mpr
      (by norm_num [rolling_mean])

/-- C6: the market maker's quote flags: above the volatility halt both sides
are inactive; the bid is inactive whenever inventory ≥ 1.5 × the soft limit
and the ask whenever inventory ≤ −1.5 × the soft limit; the last two
conjuncts show one side can stay active while the other is inventory-halted. -/
theorem quote_active_gating (volatility : ℚ) (pos soft_limit : ℤ) (vol_halt : ℚ) :
    (vol_halt < volatility → quote_active volatility pos soft_limit vol_halt = (false, false)) ∧
    ((soft_limit : ℚ) * (1.5 : ℚ) ≤ (pos : ℚ) →
      (quote_active volatility pos soft_limit vol_halt).1 = false) ∧
    ((pos : ℚ) ≤ -(soft_limit : ℚ) * (1.5 : ℚ) →
      (quote_active volatility pos soft_limit vol_halt).2 = false) ∧
    quote_active 0 300 200 1 = (false, true) ∧
    quote_active 0 (-300) 200 1 = (true, false) := by
  refine ⟨?_, ?_, ?_, by norm_num [quote_active], by norm_num [quote_active]⟩
  · intro hv
    simp [quote_active, hv]
  · intro hp
    simp [quote_active, not_lt.mpr hp]
  · intro hp
    simp only [quote_active]
    simp
    intro _
    linarith

/-- C6 witness: a concrete high-volatility bar halts both sides. -/
theorem quote_active_gating_witness :
    (1 : ℚ) < 2 ∧ quote_active 2 0 200 1 = (false, false) :=
  ⟨by norm_num, (quote_active_gating 2 0 200 1).1 (by norm_num)⟩

/-- C7 (counterexample): on a 1-unit order a primary draw of 0.8 with a
fraction draw of 0.5 yields a partial report whose filled quantity, 0, is not
the drawn fraction of the requested quantity. -/
theorem simulate_partial_counterexample :
    (simulate_execution (8/10) (1/2) ⟨0, Side.buy, 100, 1⟩).status = "partial" ∧
    ((simulate_execution (8/10) (1/2) ⟨0, Side.buy, 100, 1⟩).filled_qty : ℚ)
        ≠ (1/2) * ((1 : ℤ) : ℚ) := by
  rw [simulate_execution]
  norm_num [pyInt]

/-- C7 (amended): the fill policy by the primary draw `r`: below 0.70 a full
fill at the requested quantity, in [0.70, 0.90) a partial fill of
`int(qty * f)` — the drawn fraction of the quantity truncated to an integer,
possibly 0 — and at or above 0.90 a cancellation with zero filled quantity;
a draw of 0.05 on a 10-unit order gives a full fill of 10. -/
theorem simulate_execution_policy (r f : ℚ) (o : Order) :
    (r < (0.70 : ℚ) → simulate_execution r f o = ⟨o.order_id, "filled", o.qty⟩) ∧
    ((0.70 : ℚ) ≤ r → r < (0.90 : ℚ) →
      simulate_execution r f o = ⟨o.order_id, "partial", pyInt ((o.qty : ℚ) * f)⟩) ∧
    ((0.90 : ℚ) ≤ r → simulate_execution r f o = ⟨o.order_id, "cancelled", 0⟩) := by
  unfold simulate_execution
  refine ⟨fun h => by rw [if_pos h], fun h1 h2 => ?_, fun h => ?_⟩
  · rw [if_neg (not_lt.mpr h1), if_pos h2]
  · rw [if_neg (not_lt.mpr (le_trans (by norm_num) h)), if_neg (not_lt.mpr h)]

/-- C7 witness: the claim's scenario — a primary draw of 0.05 on a 10-unit
order is a full fill of all 10 units. -/
theorem simulate_execution_policy_witness :
    (1/20 : ℚ) < (0.70 : ℚ) ∧
    simulate_execution (1/20) (1/2) ⟨7, Side.buy, 101, 10⟩ = ⟨7, "filled", 10⟩ :=
  ⟨by norm_num, (simulate_execution_policy (1/20) (1/2) ⟨7, Side.buy, 101, 10⟩).1 (by norm_num)⟩

/-- C8 (counterexample): the engine's random source is the process-global
generator, not injected per run: with the seed fixed once, running the same
one-order sequence a second time continues the global stream instead of
replaying it, and the two runs' fill outcomes differ. -/
theorem run_engine_global_counterexample :
    (run_engine seeded_draws 0 [⟨0, Side.buy, 100, 10⟩]).1
      ≠ (run_engine seeded_draws
          (run_engine seeded_draws 0 [⟨0, Side.buy, 100, 10⟩]).2
          [⟨0, Side.buy, 100, 10⟩]).1 := by
  norm_num [run_engine, simulate_execution_global, seeded_draws]

/-- C8 (amended): a run's fill outcomes are a function of the global
generator's state at the start of the run and the order sequence alone: two
runs from equal draw streams, equal cursors and equal order sequences produce
identical outcome sequences (so re-seeding the global generator identically
before each run reproduces the fills). -/
theorem run_engine_deterministic (d1 d2 : ℕ → ℚ) (i1 i2 : ℕ) (os1 os2 : List Order)
    (hd : ∀ j, d1 j = d2 j) (hi : i1 = i2) (ho : os1 = os2) :
    run_engine d1 i1 os1 = run_engine d2 i2 os2 := by
  rw [funext hd, hi, ho]

/-- C8 witness: determinism applied at a concrete seeded stream and order. -/
theorem run_engine_deterministic_witness :
    run_engine seeded_draws 0 [⟨0, Side.buy, 100, 10⟩]
      = run_engine seeded_draws 0 [⟨0, Side.buy, 100, 10⟩] :=
  run_engine_deterministic seeded_draws seeded_draws 0 0 _ _ (fun _ => rfl) rfl rfl

/-- C9: an accepted order applies the full requested quantity (and, for buys,
the full notional) to the gate's state at validation time, touching no fields
besides capital, position and the recorded timestamps; the matching outcome
never adjusts the gate, so the gate's position delta differs from the
ledger's settled delta by the signed unfilled remainder. -/
theorem validate_full_quantity_frame (s : OMState) (o : Order) (now : ℚ)
    (h : (s.validate o now).ok = true) :
    ((s.validate o now).state).max_position = s.max_position ∧
    ((s.validate o now).state).max_orders_per_min = s.max_orders_per_min ∧
    ((s.validate o now).state).current_position
        = s.current_position + (if o.side = Side.buy then o.qty else -o.qty) ∧
    ((s.validate o now).state).capital
        = s.capital - (if o.side = Side.buy then o.price * (o.qty : ℚ) else 0) ∧
    ∀ (r f : ℚ) (b : BTState),
      (((s.validate o now).state).current_position - s.current_position)
          - ((apply_fill b o (simulate_execution r f o)).position - b.position)
        = (if o.side = Side.buy then 1 else -1)
            * (o.qty - (simulate_execution r f o).filled_qty) := by
  rw [validate_state_of_ok s o now h]
  have hfill : ∀ (r f : ℚ) (b : BTState),
      (apply_fill b o (simulate_execution r f o)).position - b.position
        = (if o.side = Side.buy then 1 else -1) * (simulate_execution r f o).filled_qty := by
    intro r f b
    unfold apply_fill simulate_execution
    split_ifs <;> simp_all
  split_ifs with hside <;>
    refine ⟨rfl, rfl, by simp [sub_eq_add_neg], by simp, fun r f b => ?_⟩ <;>
    · rw [hfill r f b]
      simp [hside]
      try ring

/-- C9 witness: a concrete accepted 10-unit buy against a partial 5-unit
fill leaves the gate 5 units ahead of the ledger. -/
theorem validate_full_quantity_frame_witness :
    ((OMState.init 100000 500 30).validate ⟨0, Side.buy, 10, 10⟩ 0).ok = true ∧
    (((OMState.init 100000 500 30).validate ⟨0, Side.buy, 10, 10⟩ 0).state).current_position
        = 0 + (if (Side.buy : Side) = Side.buy then (10 : ℤ) else -10) := by
  have hok : ((OMState.init 100000 500 30).validate ⟨0, Side.buy, 10, 10⟩ 0).ok = true := by
    norm_num [OMState.validate, OMState.check_capital, OMState.check_position_limit,
      OMState.check_order_rate, OMState.init]
  exact ⟨hok,
    (validate_full_quantity_frame (OMState.init 100000 500 30) ⟨0, Side.buy, 10, 10⟩ 0
      hok).2.2.1⟩

theorem validate_capital_le (s : OMState) (o : Order) (now : ℚ)
    (h : 0 ≤ o.price * (o.qty : ℚ)) :
    ((s.validate o now).state).capital ≤ s.capital := by
  rw [validate_capital_delta s o now]
  split_ifs with hb
  · linarith
  · linarith

theorem run_validates_capital_chain (calls : List (Order × ℚ)) :
    ∀ s : OMState, (∀ c ∈ calls, 0 ≤ c.1.price * (c.1.qty : ℚ)) →
      List.Chain' (fun a b => b ≤ a)
        (s.capital :: (run_validates s calls).map OMState.capital) := by
  induction calls with
  | nil => intro s _; simp [run_validates]
  | cons c rest ih =>
    intro s h
    have hc := h c (List.mem_cons_self c rest)
    have hrest : ∀ c' ∈ rest, 0 ≤ c'.1.price * (c'.1.qty : ℚ) :=
      fun c' hc' => h c' (List.mem_cons_of_mem c hc')
    unfold run_validates
    simp only [List.map_cons]
    exact List.Chain'.cons (validate_capital_le s c.1 c.2 hc)
      (ih ((s.validate c.1 c.2).state) hrest)

/-- C10: over any sequence of validate calls whose orders have nonnegative
notional (the data model requires positive quantities and prices), the gate's
capital is monotonically non-increasing; per call it drops by exactly the full
notional on an accepted buy and is unchanged on accepted sells and on every
rejection — sale proceeds are never credited back. -/
theorem capital_nonincreasing (s : OMState) (calls : List (Order × ℚ))
    (h : ∀ c ∈ calls, 0 ≤ c.1.price * (c.1.qty : ℚ)) :
    (∀ (o : Order) (now : ℚ),
      ((s.validate o now).state).capital
        = s.capital - (if (s.validate o now).ok = true ∧ o.side = Side.buy
            then o.price * (o.qty : ℚ) else 0)) ∧
    List.Chain' (fun a b => b ≤ a)
      (s.capital :: (run_validates s calls).map OMState.capital) := by
  exact ⟨fun o now => validate_capital_delta s o now,
    run_validates_capital_chain calls s h⟩

/-- C10 witness: a concrete two-call sequence (an accepted buy then a
capital-rejected buy) has a non-increasing capital trace. -/
theorem capital_nonincreasing_witness :
    (∀ c ∈ [((⟨0, Side.buy, 10, 10⟩ : Order), (0 : ℚ)),
        ((⟨1, Side.buy, 1000000, 10⟩ : Order), (1 : ℚ))],
      0 ≤ c.1.price * (c.1.qty : ℚ)) ∧
    List.Chain' (fun a b => b ≤ a)
      ((OMState.init 100000 500 30).capital ::
        (run_validates (OMState.init 100000 500 30)
          [((⟨0, Side.buy, 10, 10⟩ : Order), (0 : ℚ)),
            ((⟨1, Side.buy, 1000000, 10⟩ : Order), (1 : ℚ))]).map OMState.capital) := by
  have h : ∀ c ∈ [((⟨0, Side.buy, 10, 10⟩ : Order), (0 : ℚ)),
      ((⟨1, Side.buy, 1000000, 10⟩ : Order), (1 : ℚ))],
      0 ≤ c.1.price * (c.1.qty : ℚ) := by
    intro c hc
    rcases List.mem_cons.mp hc with h1 | h1
    · rw [h1]; norm_num
    · rcases List.mem_cons.mp h1 with h2 | h2
      · rw [h2]; norm_num
      · simp at h2
  exact ⟨h, (capital_nonincreasing (OMState.init 100000 500 30) _ h).2⟩

/-! The trailing-window rate limit. -/

theorem window_filter_shift {acc : List ℚ} {t0 t1 : ℚ} (h : t0 ≤ t1) :
    List.Sublist (acc.filter fun u => decide (t1 - u < 60))
      (acc.filter fun u => decide (t0 - u < 60)) := by
  apply List.monotone_filter_right
  intro a ha
  simp only [decide_eq_true_eq] at ha ⊢
  linarith

theorem filter_sub_filter {acc ts : List ℚ} {t0 t1 : ℚ} (h01 : t0 ≤ t1)
    (hsub : List.Sublist (acc.filter fun u => decide (t0 - u < 60)) ts) :
    List.Sublist (acc.filter fun u => decide (t1 - u < 60))
      (ts.filter fun u => decide (t1 - u < 60)) := by
  have h2 : (acc.filter fun u => decide (t0 - u < 60)).filter
      (fun u => decide (t1 - u < 60)) = acc.filter fun u => decide (t1 - u < 60) := by
    rw [List.filter_filter]
    apply List.filter_congr
    intro a _
    by_cases hlt : t1 - a < 60
    · have h0 : t0 - a < 60 := by linarith
      simp [hlt, h0]
    · simp [hlt]
  rw [← h2]
  exact List.Sublist.filter _ hsub

theorem window_filter_le_recent (acc : List ℚ) {t T : ℚ} (h1 : T - 60 < t) (h2 : t ≤ T) :
    List.Sublist (acc.filter fun u => decide (T - 60 < u ∧ u ≤ T))
      (acc.filter fun u => decide (t - u < 60)) := by
  apply List.monotone_filter_right
  intro a ha
  simp only [decide_eq_true_eq] at ha ⊢
  linarith [ha.1, ha.2]

theorem accepted_times_window_bound (calls : List (Order × ℚ)) :
    ∀ (s : OMState) (acc : List ℚ) (t0 : ℚ),
      List.Pairwise (fun a b => a ≤ b) (calls.map Prod.snd) →
      (∀ c ∈ calls, t0 ≤ c.2) →
      (∀ u ∈ acc, u ≤ t0) →
      List.Sublist (acc.filter fun u => decide (t0 - u < 60)) s.order_timestamps →
      (∀ T : ℚ, (acc.filter fun u => decide (T - 60 < u ∧ u ≤ T)).length
          ≤ s.max_orders_per_min) →
      ∀ T : ℚ, (((acc ++ accepted_times s calls).filter
          fun u => decide (T - 60 < u ∧ u ≤ T)).length ≤ s.max_orders_per_min) := by
  induction calls with
  | nil =>
    intro s acc t0 _ _ _ _ hwin T
    simpa [accepted_times] using hwin T
  | cons c rest ih =>
    intro s acc t0 hpair hlb hacc hsub hwin T
    have ht0 : t0 ≤ c.2 := hlb c (List.mem_cons_self c rest)
    rw [List.map_cons, List.pairwise_cons] at hpair
    obtain ⟨hhead, hpair'⟩ := hpair
    have hlb' : ∀ c' ∈ rest, c.2 ≤ c'.2 :=
      fun c' hc' => hhead c'.2 (List.mem_map_of_mem Prod.snd hc')
    unfold accepted_times
    by_cases hok : (s.validate c.1 c.2).ok = true
    · rw [if_pos hok, List.append_cons, ← validate_max_orders s c.1 c.2]
      apply ih ((s.validate c.1 c.2).state) (acc ++ [c.2]) c.2 hpair' hlb'
      · intro u hu
        rcases List.mem_append.mp hu with h1 | h1
        · exact le_trans (hacc u h1) ht0
        · obtain rfl := List.mem_singleton.mp h1
          exact le_rfl
      · rw [validate_timestamps_of_ok s c.1 c.2 hok, List.filter_append]
        have hx : ([c.2].filter fun u => decide (c.2 - u < 60)) = [c.2] := by norm_num
        rw [hx]
        exact List.Sublist.append (filter_sub_filter ht0 hsub) (List.Sublist.refl [c.2])
      · intro T'
        rw [validate_max_orders s c.1 c.2, List.filter_append]
        by_cases hw : T' - 60 < c.2 ∧ c.2 ≤ T'
        · have hx : ([c.2].filter fun u => decide (T' - 60 < u ∧ u ≤ T')) = [c.2] := by
            simp [hw]
          rw [hx, List.length_append]
          have hb1 := List.Sublist.length_le (window_filter_le_recent acc hw.1 hw.2)
          have hb2 := List.Sublist.length_le (filter_sub_filter ht0 hsub)
          have hb3 := validate_rate_of_ok s c.1 c.2 hok
          simp only [List.length_singleton]
          omega
        · have hx : ([c.2].filter fun u => decide (T' - 60 < u ∧ u ≤ T')) = [] := by
            simp [hw]
          rw [hx, List.append_nil]
          exact hwin T'
    · rw [if_neg hok, ← validate_max_orders s c.1 c.2]
      apply ih ((s.validate c.1 c.2).state) acc c.2 hpair' hlb'
      · exact fun u hu => le_trans (hacc u hu) ht0
      · have hok' : (s.validate c.1 c.2).ok = false := by
          simpa using hok
        rcases validate_state_of_not_ok s c.1 c.2 hok' with hst | hst
        · rw [hst]
          exact List.Sublist.trans (window_filter_shift ht0) hsub
        · rw [hst]
          exact filter_sub_filter ht0 hsub
      · intro T'
        rw [validate_max_orders s c.1 c.2]
        exact hwin T'

/-- C4: over any sequence of validate calls with monotone timestamps, the
gate never accepts more than `max_orders_per_min` orders whose timestamps lie
within any trailing 60-second window `(T-60, T]`: the rate check counts only
the recorded timestamps less than 60 seconds old and passes only when
strictly fewer than the maximum remain, and a timestamp is recorded only on
acceptance. -/
theorem rate_limit_trailing_window (s : OMState) (calls : List (Order × ℚ)) (T : ℚ)
    (hmono : List.Pairwise (fun a b => a ≤ b) (calls.map Prod.snd)) :
    ((accepted_times s calls).filter fun u => decide (T - 60 < u ∧ u ≤ T)).length
      ≤ s.max_orders_per_min := by
  cases calls with
  | nil => simp [accepted_times]
  | cons c rest =>
    have hlb : ∀ c' ∈ c :: rest, c.2 ≤ c'.2 := by
      intro c' hc'
      rcases List.mem_cons.mp hc' with h1 | h1
      · rw [h1]
      · rw [List.map_cons, List.pairwise_cons] at hmono
        exact hmono.1 c'.2 (List.mem_map_of_mem Prod.snd h1)
    have hb := accepted_times_window_bound (c :: rest) s [] c.2 hmono hlb
      (fun u hu => absurd hu (List.not_mem_nil u)) (by simp) (fun T' => by simp) T
    simpa using hb

/-- C4 witness: with a 2-per-minute limit, three simultaneous buys yield at
most two accepted timestamps in the window ending at their common time. -/
theorem rate_limit_trailing_window_witness :
    List.Pairwise (fun a b => a ≤ b)
      (([((⟨0, Side.buy, 1, 1⟩ : Order), (0 : ℚ)),
          ((⟨1, Side.buy, 1, 1⟩ : Order), (0 : ℚ)),
          ((⟨2, Side.buy, 1, 1⟩ : Order), (0 : ℚ))]).map Prod.snd) ∧
    ((accepted_times (OMState.init 100000 500 2)
        [((⟨0, Side.buy, 1, 1⟩ : Order), (0 : ℚ)),
          ((⟨1, Side.buy, 1, 1⟩ : Order), (0 : ℚ)),
          ((⟨2, Side.buy, 1, 1⟩ : Order), (0 : ℚ))]).filter
        fun u => decide ((0 : ℚ) - 60 < u ∧ u ≤ 0)).length
      ≤ (OMState.init 100000 500 2).max_orders_per_min := by
  have hpair : List.Pairwise (fun a b => a ≤ b)
      (([((⟨0, Side.buy, 1, 1⟩ : Order), (0 : ℚ)),
          ((⟨1, Side.buy, 1, 1⟩ : Order), (0 : ℚ)),
          ((⟨2, Side.buy, 1, 1⟩ : Order), (0 : ℚ))]).map Prod.snd) := by
    norm_num [List.pairwise_cons]
  exact ⟨hpair, rate_limit_trailing_window (OMState.init 100000 500 2) _ 0 hpair⟩

end TradingSystem
